import Mathlib

/-!
# Verification of the ObsidianPilot full-text search subsystem

A shallow embedding of the search subsystem of the repository:

* `obsidianpilot/utils/fts_search.py`   — `FTSSearchIndex` (index store),
  `QueryParser` (query validation), and the FTS5 query transformation;
* `obsidianpilot/utils/index_updater.py` — `IndexUpdater.check_and_update`
  (the reconciliation pass);
* `obsidianpilot/tools/fast_search.py`  — `search_notes` / `search_by_field`
  (the tool-facing search facade).

Python strings are modelled as Lean `String` (operating on `List Char`,
i.e. code points, which matches Python's string indexing and slicing).
Case mapping is modelled on the ASCII range, which is the range SQLite's
`LIKE` folds and the range exercised by the queries under study.
Wall-clock times are modelled as integers passed explicitly.
The SQLite FTS5 MATCH engine itself is external to the repository and is
modelled as an oracle parameter that may reject a compiled query.
-/

deriving instance DecidableEq for Except

namespace ObsidianPilot

/-! ## Character and string primitives (Python / SQLite semantics) -/

/-- The ASCII uppercase/lowercase letter pairs. -/
def upperLower : List (Char × Char) :=
  [('A','a'), ('B','b'), ('C','c'), ('D','d'), ('E','e'), ('F','f'), ('G','g'),
   ('H','h'), ('I','i'), ('J','j'), ('K','k'), ('L','l'), ('M','m'), ('N','n'),
   ('O','o'), ('P','p'), ('Q','q'), ('R','r'), ('S','s'), ('T','t'), ('U','u'),
   ('V','v'), ('W','w'), ('X','x'), ('Y','y'), ('Z','z')]

/-- ASCII lower-casing of a single character (identity outside `A`–`Z`).
This is the fragment of Python's `str.lower` and of SQLite `LIKE`'s case
folding that is relevant here. -/
def lowerA (c : Char) : Char :=
  ((upperLower.find? (fun p => p.1 == c)).map (·.2)).getD c

/-- ASCII upper-casing of a single character (identity outside `a`–`z`);
the fragment of Python's `str.upper` relevant here. -/
def upperA : Char → Char
  | 'a' => 'A' | 'b' => 'B' | 'c' => 'C' | 'd' => 'D' | 'e' => 'E' | 'f' => 'F'
  | 'g' => 'G' | 'h' => 'H' | 'i' => 'I' | 'j' => 'J' | 'k' => 'K' | 'l' => 'L'
  | 'm' => 'M' | 'n' => 'N' | 'o' => 'O' | 'p' => 'P' | 'q' => 'Q' | 'r' => 'R'
  | 's' => 'S' | 't' => 'T' | 'u' => 'U' | 'v' => 'V' | 'w' => 'W' | 'x' => 'X'
  | 'y' => 'Y' | 'z' => 'Z'
  | c => c

/-- `charsPre n h` : the character list `n` occurs at the head of `h`. -/
def charsPre : List Char → List Char → Bool
  | [], _ => true
  | _ :: _, [] => false
  | c :: cs, d :: ds => c == d && charsPre cs ds

/-- `charsSub n h` : the character list `n` occurs somewhere inside `h`
(Python's `n in h` on strings). -/
def charsSub (n : List Char) : List Char → Bool
  | [] => n.isEmpty
  | d :: ds => charsPre n (d :: ds) || charsSub n ds

/-- Python's `needle in haystack` on strings. -/
def strContainsSub (haystack needle : String) : Bool :=
  charsSub needle.data haystack.data

/-- First occurrence index of `n` in a character list (Python `str.find`,
returning `none` instead of `-1`). -/
def charsFind (n : List Char) : List Char → Option Nat
  | [] => if n.isEmpty then some 0 else none
  | d :: ds => if charsPre n (d :: ds) then some 0 else (charsFind n ds).map (· + 1)

/-- The whitespace characters stripped by Python's `str.strip()` that can
occur in the strings under study. -/
def isSpaceChar (c : Char) : Bool :=
  c == ' ' || c == '\t' || c == '\n' || c == '\r'

/-- Python `str.strip()` on a character list. -/
def trimChars (s : List Char) : List Char :=
  ((s.dropWhile isSpaceChar).reverse.dropWhile isSpaceChar).reverse

/-- Python `str.strip()`. -/
def pyStrip (s : String) : String := ⟨trimChars s.data⟩

/-- Python `str.startswith`. -/
def pyStartsWith (s p : String) : Bool := charsPre p.data s.data

/-- Python `str.endswith`. -/
def pyEndsWith (s p : String) : Bool := charsPre p.data.reverse s.data.reverse

/-- Python `s[n:]` (drop the first `n` code points). -/
def pyDrop (s : String) (n : Nat) : String := ⟨s.data.drop n⟩

/-- Python `str.lower` restricted to ASCII case mapping. -/
def lowerStr (s : String) : String := ⟨s.data.map lowerA⟩

/-- Python `str.upper` restricted to ASCII case mapping. -/
def upperStr (s : String) : String := ⟨s.data.map upperA⟩

/-- One fuelled step list of Python's `str.replace`: replaces every
non-overlapping occurrence of `pat` left-to-right.  The fuel is the length
of the subject string, which the recursion consumes at least one character
of per step (the patterns used by the code are all nonempty). -/
def replCharsF (pat rep : List Char) : Nat → List Char → List Char
  | _, [] => []
  | 0, s => s
  | f + 1, c :: cs =>
    if pat.isEmpty then c :: cs
    else if charsPre pat (c :: cs) then rep ++ replCharsF pat rep f ((c :: cs).drop pat.length)
    else c :: replCharsF pat rep f cs

/-- Python `str.replace` on character lists. -/
def replChars (pat rep s : List Char) : List Char := replCharsF pat rep s.length s

/-- Python `str.replace`. -/
def pyReplace (s pat rep : String) : String := ⟨replChars pat.data rep.data s.data⟩

/-- Fuelled worker for splitting a character list on a (nonempty) separator;
the fuel is the length of the subject string. -/
def splitCharsF (sep : List Char) : Nat → List Char → List (List Char)
  | _, [] => [[]]
  | 0, s => [s]
  | f + 1, c :: cs =>
    if sep.isEmpty then [c :: cs]
    else if charsPre sep (c :: cs) then [] :: splitCharsF sep f ((c :: cs).drop sep.length)
    else
      match splitCharsF sep f cs with
      | [] => [[c]]
      | t :: ts => (c :: t) :: ts

/-- Split a string on every occurrence of a separator (Python
`str.split(sep)` on strings without adjacent-separator subtleties). -/
def pySplit (s sep : String) : List String :=
  (splitCharsF sep.data s.data.length s.data).map (⟨·⟩)

/-- Python `str.split(sep, 2)`: at most two splits, the remainder kept
whole as the third part. -/
def pySplitMax2 (s sep : String) : List String :=
  let parts := pySplit s sep
  if parts.length ≤ 3 then parts
  else parts.take 2 ++ [String.intercalate sep (parts.drop 2)]

/-! ## Data model: the two tables owned by `FTSSearchIndex`
(`notes_fts` FTS5 virtual table and `notes_metadata` table,
`fts_search.py`, `_create_fts_tables`). -/

/-- One row of the `notes_fts` FTS5 virtual table. -/
structure FtsRow where
  filepath : String
  filename : String
  content : String
  tags : String
  properties : String
deriving DecidableEq, Repr

/-- One row of the `notes_metadata` table (`filepath` is the primary key). -/
structure MetaRow where
  filepath : String
  mtime : Int
  size : Nat
  last_indexed : Int
deriving DecidableEq, Repr

/-- The state of the on-disk index: both tables, each as a list of rows in
rowid (insertion) order, which is the order an unordered SQLite scan
returns them in. -/
structure FTSIndex where
  notes_fts : List FtsRow
  notes_metadata : List MetaRow
deriving DecidableEq, Repr

/-- The freshly created (empty) index. -/
def emptyIndex : FTSIndex := ⟨[], []⟩

/-- A value of a frontmatter property (`str(value)` of a Python scalar, or a
list of such strings). -/
inductive FmValue where
  | str (s : String)
  | list (vs : List String)
deriving DecidableEq, Repr

/-- The `NoteMetadata` object handed to `index_file`: a tag list and the
frontmatter key/value pairs. -/
structure NoteMetadata where
  tags : List String
  frontmatter : List (String × FmValue)
deriving DecidableEq, Repr

/-- `' '.join(metadata.tags)` (`index_file`). -/
def tagsText (md : NoteMetadata) : String := String.intercalate " " md.tags

/-- Formatting of one frontmatter pair as searchable text (`index_file`):
`f"{key}:{value}"`, lists joined by spaces. -/
def fmtProperty : String × FmValue → String
  | (k, .str v) => k ++ ":" ++ v
  | (k, .list vs) => k ++ ":" ++ String.intercalate " " vs

/-- The `properties` column text: every frontmatter pair except `tags`,
space-joined (`index_file`). -/
def propertiesText (md : NoteMetadata) : String :=
  String.intercalate " " ((md.frontmatter.filter (fun kv => kv.1 ≠ "tags")).map fmtProperty)

/-- `Path(filepath).stem`: the final path component without its suffix
(a lone leading dot, as in `.gitignore`, is not a suffix). -/
def pathStem (p : String) : String :=
  let name := ((pySplit p "/").getLast?).getD ""
  match pySplit name "." with
  | [] => name
  | [_] => name
  | x :: rest => if x = "" ∧ rest.length = 1 then name
                 else String.intercalate "." ((x :: rest).dropLast)

/-- `FTSSearchIndex.index_file`: delete any existing `notes_fts` row for
`filepath`, insert the new row, and `INSERT OR REPLACE` the metadata row
with `size = len(content)` and `mtime = last_indexed = time.time()`
(modelled by the explicit `now`). -/
def index_file (st : FTSIndex) (filepath content : String) (md : NoteMetadata) (now : Int) :
    FTSIndex :=
  let row : FtsRow :=
    { filepath := filepath, filename := pathStem filepath, content := content
      tags := tagsText md, properties := propertiesText md }
  { notes_fts := st.notes_fts.filter (fun r => r.filepath ≠ filepath) ++ [row]
    notes_metadata := st.notes_metadata.filter (fun m => m.filepath ≠ filepath) ++
      [{ filepath := filepath, mtime := now, size := content.length, last_indexed := now }] }

/-- `FTSSearchIndex.remove_file`: delete the rows for `filepath` from both
tables (a no-op when the path is absent). -/
def remove_file (st : FTSIndex) (filepath : String) : FTSIndex :=
  { notes_fts := st.notes_fts.filter (fun r => r.filepath ≠ filepath)
    notes_metadata := st.notes_metadata.filter (fun m => m.filepath ≠ filepath) }

/-- SQL `MIN` over a column of integers (`NULL`, i.e. `none`, on an empty
table). -/
def listMinI : List Int → Option Int
  | [] => none
  | x :: xs => match listMinI xs with | none => some x | some y => some (min x y)

/-- SQL `MAX` over a column of integers. -/
def listMaxI : List Int → Option Int
  | [] => none
  | x :: xs => match listMaxI xs with | none => some x | some y => some (max x y)

/-- The dictionary returned by `FTSSearchIndex.get_stats`. -/
structure IndexStats where
  total_files : Nat
  total_size_bytes : Nat
  oldest_index : Option Int
  newest_index : Option Int
  index_age_seconds : Int
deriving DecidableEq, Repr

/-- `FTSSearchIndex.get_stats`: `COUNT(*)` over `notes_fts`, `SUM(size)`
(with SQL `NULL` coalesced to `0` by `or 0`), `MIN`/`MAX(last_indexed)`,
and `index_age_seconds = time.time() - (newest_index or 0)`. -/
def get_stats (st : FTSIndex) (now : Int) : IndexStats :=
  let newest := listMaxI (st.notes_metadata.map (·.last_indexed))
  { total_files := st.notes_fts.length
    total_size_bytes := (st.notes_metadata.map (·.size)).foldl (· + ·) 0
    oldest_index := listMinI (st.notes_metadata.map (·.last_indexed))
    newest_index := newest
    index_age_seconds := now - newest.getD 0 }

/-! ## Query translation and validation (`fts_search.py`) -/

/-- `FTSSearchIndex._transform_query`: raise on an all-whitespace query;
pass a leading-and-trailing-quoted query through unchanged; uppercase the
exactly-lowercase spellings of the space-delimited boolean operators;
quote-wrap a bare multi-word query; otherwise return the stripped query. -/
def transform_query (query : String) : Except String String :=
  if pyStrip query = "" then .error "Search query cannot be empty"
  else if pyStartsWith query "\"" && pyEndsWith query "\"" then .ok query
  else
    let q := pyReplace (pyReplace (pyReplace query " or " " OR ") " and " " AND ") " not " " NOT "
    if !strContainsSub q " OR " && !strContainsSub q " AND " && !strContainsSub q " NOT "
        && strContainsSub (pyStrip q) " " && !pyStartsWith q "\""
    then .ok ("\"" ++ pyStrip q ++ "\"")
    else .ok (pyStrip q)

/-- The denylist scanned by `QueryParser.validate_query`. -/
def dangerous_patterns : List String := ["--", ";", "DROP", "DELETE", "INSERT", "UPDATE"]

/-- `QueryParser.validate_query`: reject empty/whitespace-only queries,
queries longer than 1000 characters, and queries containing a denylisted
pattern (compared against the uppercased query); accept everything else. -/
def validate_query (query : String) : Bool × String :=
  if pyStrip query = "" then (false, "Search query cannot be empty")
  else if query.length > 1000 then (false, "Search query too long (max 1000 characters)")
  else
    match dangerous_patterns.find? (fun p => strContainsSub (upperStr query) p) with
    | some p => (false, "Query contains potentially dangerous pattern: " ++ p)
    | none => (true, "")

/-! ## The SQLite `LIKE` operator and the fallback scan -/

/-- Fuelled SQLite `LIKE` matcher: `%` matches any sequence, `_` any single
character, and ordinary characters compare ASCII-case-insensitively.  Every
recursive call shrinks `pattern.length + subject.length`, so fuel
`pattern.length + subject.length + 1` always suffices. -/
def likeF : Nat → List Char → List Char → Bool
  | 0, _, _ => false
  | _ + 1, [], s => s.isEmpty
  | f + 1, p :: ps, s =>
    if p = '%' then
      likeF f ps s ||
        (match s with
         | [] => false
         | _ :: cs => likeF f (p :: ps) cs)
    else if p = '_' then
      match s with
      | [] => false
      | _ :: cs => likeF f ps cs
    else
      match s with
      | [] => false
      | c :: cs => (lowerA p == lowerA c) && likeF f ps cs

/-- SQLite `content LIKE pattern`. -/
def likeMatch (pat s : List Char) : Bool := likeF (pat.length + s.length + 1) pat s

/-- The bound parameter `f"%{query_lower}%"` built by `_simple_search`. -/
def likePattern (query : String) : List Char := '%' :: (lowerStr query).data ++ ['%']

/-- The context string computed by `_simple_search` for one matching row:
a window of 50 characters each side of the first (lowercased) occurrence of
the query, with `...` markers on clipped ends; if the query is not found in
the content (possible when the `LIKE` pattern matched through wildcards),
the first 100 characters. -/
def simpleContext (content query : String) : String :=
  match charsFind (lowerStr query).data (lowerStr content).data with
  | some pos =>
    let start := pos - 50
    let stop := min content.length (pos + query.length + 50)
    let ctx := ⟨trimChars ((content.data.take stop).drop start)⟩
    let ctx := if start > 0 then "..." ++ ctx else ctx
    if stop < content.length then ctx ++ "..." else ctx
  | none => (⟨trimChars (content.data.take 100)⟩ : String) ++ "..."

/-- One entry of the result list produced by `search` / `_simple_search`.
FTS5 ranks are reals; only their sign and order matter here, so they are
modelled as integers. -/
structure SearchResult where
  path : String
  filename : String
  context : String
  score : Int
  rank : Nat
deriving DecidableEq, Repr

/-- The result-building loop of `_simple_search`: each appended dict gets
`rank = i + offset + 1` where `i` counts results built so far. -/
def shapeSimpleRows (query : String) (offset : Nat) : Nat → List FtsRow → List SearchResult
  | _, [] => []
  | i, r :: rs =>
    { path := r.filepath, filename := r.filename, context := simpleContext r.content query
      score := 1, rank := i + offset + 1 } :: shapeSimpleRows query offset (i + 1) rs

/-- `FTSSearchIndex._simple_search`: `SELECT ... WHERE content LIKE
'%query.lower()%' LIMIT limit OFFSET offset` over the `notes_fts` table in
scan order, each row shaped with `simpleContext`, score `1`, and rank
`i + offset + 1`. -/
def simple_search (st : FTSIndex) (query : String) (limit offset : Nat) : List SearchResult :=
  let rows := ((st.notes_fts.filter (fun r => likeMatch (likePattern query) r.content.data)).drop
    offset).take limit
  shapeSimpleRows query offset 0 rows

/-- One row returned by the FTS5 `MATCH` query inside `search`:
`(filepath, snippet, rank, filename)`. -/
structure EngineRow where
  filepath : String
  snippet : String
  rank : Int
  filename : String
deriving DecidableEq, Repr

/-- The FTS5 `MATCH` engine, which is external to the repository: given the
index state, the compiled query, `limit`, `offset` and the snippet window,
it either returns ranked rows or rejects the query.  -/
def FtsEngine : Type :=
  FTSIndex → String → Nat → Nat → Nat → Except String (List EngineRow)

/-- The result-building loop of `search` on engine rows: `score = -rank`
(FTS5 ranks are negative; the sign is flipped) and `rank = i + offset + 1`. -/
def shapeEngineRows (offset : Nat) : Nat → List EngineRow → List SearchResult
  | _, [] => []
  | i, r :: rs =>
    { path := r.filepath, filename := r.filename, context := r.snippet
      score := -r.rank, rank := i + offset + 1 } :: shapeEngineRows offset (i + 1) rs

/-- `FTSSearchIndex.search`: transform the query and run it through the
engine; shape each row with `score = -rank` and `rank = i + offset + 1`;
on any exception from the transform or the engine, fall back to
`simple_search`. -/
def searchOp (engine : FtsEngine) (st : FTSIndex) (query : String)
    (limit offset snippet_length : Nat) : List SearchResult :=
  match transform_query query with
  | .error _ => simple_search st query limit offset
  | .ok fq =>
    match engine st fq limit offset snippet_length with
    | .ok rows => shapeEngineRows offset 0 rows
    | .error _ => simple_search st query limit offset

example : transform_query "machine learning" = .ok "\"machine learning\"" := by decide
example : transform_query "python and java" = .ok "python AND java" := by decide
example : transform_query "\"machine learning\"" = .ok "\"machine learning\"" := by decide
example : transform_query "  " = .error "Search query cannot be empty" := by decide
example : (validate_query "hello world").1 = true := by decide
example : (validate_query "drop table").1 = false := by decide
example : (validate_query "ok; fine").1 = false := by decide
example : likeMatch (likePattern "ELL") "hello".data = true := by decide
example : likeMatch (likePattern "a%b") "a!!b".data = true := by decide
example : likeMatch (likePattern "xy") "hello".data = false := by decide
example : simpleContext "hello world" "WORLD" = "hello world" := by decide

/-! ## Search facade (`tools/fast_search.py`) -/

/-- Modelled from the spec: `validate_context_length` lives in
`utils/validation.py`, which is not part of the sources at hand; §6 of the
specification fixes the tool interface to `contextLength: 10..500`,
with validation failures reported as a `(False, message)` pair like
`validate_query`'s. -/
def validate_context_length (n : Nat) : Bool × String :=
  if n < 10 ∨ 500 < n then (false, "context_length must be between 10 and 500")
  else (true, "")

/-- The response dictionary shaped by `search_notes` / `search_by_field`.
Fields that only one of the two builders emits are `Option`s. -/
structure SearchResponse where
  results : List SearchResult
  total_count : Nat
  max_results : Nat
  indexed_files : Option Nat
  perf_status : Option String
  index_age_seconds : Option Int
  message : Option String
  truncated : Bool
deriving DecidableEq, Repr

/-- `search_by_field`: validate the field name, the value and the 1–200
result cap; compile `field:"value"` (or the bare value for `content`); run
`searchOp` with `limit = max_results`; shape the response with
`truncated = len(results) >= max_results`.  The `Bool` component records
whether `fts.search` was invoked.  Raised `ValueError`s are `.error`. -/
def search_by_field (engine : FtsEngine) (st : FTSIndex) (field value : String)
    (max_results : Nat) : Except String SearchResponse × Bool :=
  if ¬ (field = "filename" ∨ field = "tags" ∨ field = "properties" ∨ field = "content") then
    (.error "Field must be one of: filename, tags, properties, content", false)
  else if (validate_query value).1 = false then (.error (validate_query value).2, false)
  else if max_results < 1 ∨ 200 < max_results then
    (.error "max_results must be between 1 and 200", false)
  else
    let fts_query := if field = "content" then value else field ++ ":\"" ++ value ++ "\""
    let results := searchOp engine st fts_query max_results 0 30
    (.ok { results := results, total_count := results.length, max_results := max_results
           indexed_files := none, perf_status := none, index_age_seconds := none
           message := none, truncated := decide (max_results ≤ results.length) }, true)

/-- The outcome of a `search_notes` call: a shaped response, or a
delegation to the (external) `search_by_property` tool. -/
inductive SNOut where
  | resp (r : SearchResponse)
  | propertyDelegated (name : String) (value : Option String)
deriving DecidableEq, Repr

/-- The `message` literal of the index-not-ready response in
`search_notes`. -/
def notReadyMessage : String :=
  "Search index is not ready. Please use 'rebuild_search_index_tool' first to build the index (this may take 2-5 minutes for large vaults). After indexing, searches will be instant."

/-- `search_notes`: dispatch `tag:` / `path:` prefixes to `search_by_field`
and `property:` to the external `search_by_property`; validate the query,
the context length and the 1–500 result cap; if `get_stats` reports zero
documents, return the structured index-not-ready response without querying
the engine; otherwise run `searchOp` with `limit = max_results` and snippet
window `context_length / 3`.  The `Bool` component records whether
`fts.search` was invoked (directly or through delegation). -/
def search_notes (engine : FtsEngine) (st : FTSIndex) (query : String)
    (max_results context_length : Nat) (now : Int) : Except String SNOut × Bool :=
  if pyStartsWith query "tag:" then
    let tag : String := ⟨(pyDrop query 4).data.dropWhile (· == '#')⟩
    let res := search_by_field engine st "tags" tag max_results
    (res.1.map .resp, res.2)
  else if pyStartsWith query "path:" then
    let res := search_by_field engine st "filename" (pyDrop query 5) max_results
    (res.1.map .resp, res.2)
  else if pyStartsWith query "property:" then
    match pySplitMax2 query ":" with
    | _ :: name :: rest => (.ok (.propertyDelegated name rest.head?), false)
    | _ => (.error "Invalid property search format. Use 'property:name:value'", false)
  else if (validate_query query).1 = false then (.error (validate_query query).2, false)
  else if (validate_context_length context_length).1 = false then
    (.error (validate_context_length context_length).2, false)
  else if max_results < 1 ∨ 500 < max_results then
    (.error "max_results must be between 1 and 500", false)
  else if (get_stats st now).total_files = 0 then
    (.ok (.resp { results := [], total_count := 0, max_results := max_results
                  indexed_files := some 0, perf_status := some "index_not_ready"
                  index_age_seconds := none, message := some notReadyMessage
                  truncated := false }), false)
  else
    let results := searchOp engine st query max_results 0 (context_length / 3)
    let stats := get_stats st now
    (.ok (.resp { results := results, total_count := results.length
                  max_results := max_results, indexed_files := some stats.total_files
                  perf_status := none, index_age_seconds := some stats.index_age_seconds
                  message := none, truncated := decide (max_results ≤ results.length) }), true)

/-! ## The reconciliation pass (`utils/index_updater.py`) -/

/-- One live note as the external note store exposes it: its vault-relative
path, its filesystem modification time, and what `read_note` returns. -/
structure VaultNote where
  path : String
  mtime : Int
  content : String
  md : NoteMetadata
deriving DecidableEq, Repr

/-- The `.trash` / `.obsidian` exclusion applied by `check_and_update`,
`rebuild_fts_index` and `update_index_for_file` (backslashes normalized to
forward slashes first). -/
def isExcluded (filepath : String) : Bool :=
  let f := pyReplace filepath "\\" "/"
  pyStartsWith f ".trash/" || strContainsSub f "/.trash/" ||
    pyStartsWith f ".obsidian/" || strContainsSub f "/.obsidian/"

/-- Lookup in the `_file_mtimes` dict (modelled as an association list in
insertion order, which is Python dict iteration order). -/
def mtLookup (m : List (String × Int)) (k : String) : Option Int :=
  (m.find? (fun kv => kv.1 == k)).map (·.2)

/-- `_file_mtimes[k] = v`: overwrite in place, or append a new key. -/
def mtSet (m : List (String × Int)) (k : String) (v : Int) : List (String × Int) :=
  if (m.find? (fun kv => kv.1 == k)).isSome then
    m.map (fun kv => if kv.1 == k then (k, v) else kv)
  else m ++ [(k, v)]

/-- The classification loop of `check_and_update`: walk the live notes in
listing order, skip excluded paths, classify each note as added (path not
yet tracked) or modified (tracked with a strictly older mtime), and record
the observed mtime.  Returns the added list, the modified list and the
updated mtime map. -/
def classifyPass : List VaultNote → List (String × Int) →
    List String × List String × List (String × Int)
  | [], m => ([], [], m)
  | n :: rest, m =>
    if isExcluded n.path then classifyPass rest m
    else
      let isNew := (mtLookup m n.path).isNone
      let isMod := match mtLookup m n.path with
                   | some t => decide (t < n.mtime)
                   | none => false
      let (a, md, mf) := classifyPass rest (mtSet m n.path n.mtime)
      ((if isNew then n.path :: a else a), (if isMod then n.path :: md else md), mf)

/-- One call made against the index store during a pass. -/
inductive SyncCall where
  | ix (p : String)
  | rm (p : String)
deriving DecidableEq, Repr

/-- The summary dictionary returned by `check_and_update` (the `no_index`
early return carries only a status; its counters are reported as zero
here). -/
structure SyncReport where
  status : String
  added : Nat
  modified : Nat
  deleted : Nat
  total_updated : Nat
  total_files : Nat
deriving DecidableEq, Repr

/-- Everything a reconciliation pass produces: the report, the resulting
index, the resulting `_file_mtimes` map, and the ordered log of index-store
calls. -/
structure SyncOutcome where
  report : SyncReport
  index : FTSIndex
  mtimes : List (String × Int)
  calls : List SyncCall
deriving DecidableEq, Repr

/-- `IndexUpdater.check_and_update`: bail out with `no_index` when
`get_stats` reports zero documents; otherwise classify added / modified /
deleted, then re-index every added and modified path (reads that fail —
a path missing from the store — are logged and skipped) and remove every
deleted path. Deleted paths are those tracked in `_file_mtimes` but absent
from the live listing. -/
def check_and_update (vault : List VaultNote) (mtimes : List (String × Int))
    (st : FTSIndex) (now : Int) : SyncOutcome :=
  let currentFiles := vault.map (·.path)
  if (get_stats st now).total_files = 0 then
    { report := { status := "no_index", added := 0, modified := 0, deleted := 0
                  total_updated := 0, total_files := 0 }
      index := st, mtimes := mtimes, calls := [] }
  else
    let (addedFiles, modifiedFiles, m1) := classifyPass vault mtimes
    let deletedFiles := (m1.filter (fun kv => ¬ currentFiles.contains kv.1)).map (·.1)
    let m2 := m1.filter (fun kv => currentFiles.contains kv.1)
    let step := fun (acc : FTSIndex × List SyncCall × Nat) (p : String) =>
      match vault.find? (fun n => n.path == p) with
      | some n => (index_file acc.1 n.path n.content n.md now, acc.2.1 ++ [.ix p], acc.2.2 + 1)
      | none => acc
    let (st1, log1, cnt1) := (addedFiles ++ modifiedFiles).foldl step (st, [], 0)
    let (st2, log2, cnt2) := deletedFiles.foldl
      (fun acc p => (remove_file acc.1 p, acc.2.1 ++ [.rm p], acc.2.2 + 1)) (st1, log1, cnt1)
    { report := { status := "updated", added := addedFiles.length
                  modified := modifiedFiles.length, deleted := deletedFiles.length
                  total_updated := cnt2, total_files := currentFiles.eraseDups.length }
      index := st2, mtimes := m2, calls := log2 }

/-! ## Operation sequences over the index store (for the 1:1 invariant) -/

/-- A completed index-store mutation: one `index_file` or one
`remove_file` call. -/
inductive IndexOp where
  | ix (filepath content : String) (md : NoteMetadata) (now : Int)
  | rm (filepath : String)
deriving DecidableEq, Repr

/-- Apply one completed mutation. -/
def applyOp (st : FTSIndex) : IndexOp → FTSIndex
  | .ix fp c md now => index_file st fp c md now
  | .rm fp => remove_file st fp

/-- Apply a sequence of completed mutations in order. -/
def applyOps (st : FTSIndex) (ops : List IndexOp) : FTSIndex := ops.foldl applyOp st

/-- The 1:1 invariant between the two tables: a filepath has a row in
`notes_fts` exactly when it has a row in `notes_metadata`. -/
def tablesAligned (st : FTSIndex) : Prop :=
  ∀ p : String, (∃ r ∈ st.notes_fts, r.filepath = p) ↔ ∃ m ∈ st.notes_metadata, m.filepath = p

/-! ## Concrete scenario states used by the theorems below -/

/-- The live document set of the C1 scenario: `A` (stale in the
synchronizer state) and `B` (new). -/
def c1Vault : List VaultNote := [⟨"A.md", 2, "ca", ⟨[], []⟩⟩, ⟨"B.md", 5, "cb", ⟨[], []⟩⟩]

/-- The index of the C1 scenario, whose tables contain `A` and `C`. -/
def c1Index : FTSIndex :=
  { notes_fts := [⟨"A.md", "A", "ca0", "", ""⟩, ⟨"C.md", "C", "cc", "", ""⟩]
    notes_metadata := [⟨"A.md", 0, 3, 0⟩, ⟨"C.md", 0, 2, 0⟩] }

/-- A character list free of the SQLite `LIKE` wildcards `%` and `_`. -/
def noWildcard (s : List Char) : Bool := s.all (fun c => !(c == '%') && !(c == '_'))

/-- The one-row index of the C5 scenarios. -/
def c5Index : FTSIndex :=
  { notes_fts := [⟨"n.md", "n", "axb", "", ""⟩], notes_metadata := [⟨"n.md", 0, 3, 0⟩] }

/-! # Theorems -/

/-! ### C2 — indexing is idempotent with respect to row count -/

theorem filter_key_of_filter_ne {α : Type} (key : α → String) (p : String) (l : List α) :
    (l.filter (fun a => key a ≠ p)).filter (fun a => key a = p) = [] := by
  induction l with
  | nil => rfl
  | cons a t ih =>
    by_cases h : key a = p <;> simp [List.filter_cons, h, ih]

/-- C2. Calling `index_file` twice with the same
`(path, content, tags, properties)` leaves exactly one `notes_fts` row and
exactly one `notes_metadata` row for that path, whatever the starting
state (each call deletes the path's rows before re-inserting them). -/
theorem c2_index_twice_single_row (st : FTSIndex) (p content : String) (md : NoteMetadata)
    (now1 now2 : Int) :
    (((index_file (index_file st p content md now1) p content md now2).notes_fts.filter
        (fun r => r.filepath = p)).length = 1) ∧
    (((index_file (index_file st p content md now1) p content md now2).notes_metadata.filter
        (fun m => m.filepath = p)).length = 1) := by
  constructor <;>
    simp [index_file, List.filter_append,
      filter_key_of_filter_ne (fun r : FtsRow => r.filepath) p,
      filter_key_of_filter_ne (fun m : MetaRow => m.filepath) p]

/-! ### C3 — the two tables are written and deleted together -/

theorem tablesAligned_applyOp (st : FTSIndex) (op : IndexOp) (h : tablesAligned st) :
    tablesAligned (applyOp st op) := by
  cases op with
  | ix fp c md now =>
    intro p
    by_cases hp : p = fp
    · subst hp
      constructor <;> intro _ <;>
        · simp only [applyOp, index_file, List.mem_append, List.mem_filter,
            List.mem_singleton]
          exact ⟨_, Or.inr rfl, rfl⟩
    · have hiff := h p
      constructor <;> intro hex
      · rcases hex with ⟨r, hr, hrp⟩
        simp only [applyOp, index_file, List.mem_append, List.mem_filter,
          List.mem_singleton] at hr
        rcases hr with ⟨hr, _⟩ | hr
        · rcases hiff.mp ⟨r, hr, hrp⟩ with ⟨m, hm, hmp⟩
          exact ⟨m, by simp [applyOp, index_file, List.mem_append, List.mem_filter, hm,
            hmp, hp], hmp⟩
        · subst hr; simp at hrp; exact absurd hrp.symm hp
      · rcases hex with ⟨m, hm, hmp⟩
        simp only [applyOp, index_file, List.mem_append, List.mem_filter,
          List.mem_singleton] at hm
        rcases hm with ⟨hm, _⟩ | hm
        · rcases hiff.mpr ⟨m, hm, hmp⟩ with ⟨r, hr, hrp⟩
          exact ⟨r, by simp [applyOp, index_file, List.mem_append, List.mem_filter, hr,
            hrp, hp], hrp⟩
        · subst hm; simp at hmp; exact absurd hmp.symm hp
  | rm fp =>
    intro p
    have hiff := h p
    constructor <;> intro hex
    · rcases hex with ⟨r, hr, hrp⟩
      simp only [applyOp, remove_file, List.mem_filter] at hr
      rcases hr with ⟨hr, hne⟩
      rcases hiff.mp ⟨r, hr, hrp⟩ with ⟨m, hm, hmp⟩
      refine ⟨m, ?_, hmp⟩
      simp only [applyOp, remove_file, List.mem_filter]
      exact ⟨hm, by simp_all⟩
    · rcases hex with ⟨m, hm, hmp⟩
      simp only [applyOp, remove_file, List.mem_filter] at hm
      rcases hm with ⟨hm, hne⟩
      rcases hiff.mpr ⟨m, hm, hmp⟩ with ⟨r, hr, hrp⟩
      refine ⟨r, ?_, hrp⟩
      simp only [applyOp, remove_file, List.mem_filter]
      exact ⟨hr, by simp_all⟩

/-- C3. After any sequence of completed `index_file` / `remove_file`
operations from the fresh index, a filepath has a `notes_metadata` row iff
it has a `notes_fts` row; moreover each single operation preserves this
alignment from any aligned state. -/
theorem c3_tables_aligned :
    (∀ ops : List IndexOp, tablesAligned (applyOps emptyIndex ops)) ∧
    (∀ (st : FTSIndex) (op : IndexOp), tablesAligned st → tablesAligned (applyOp st op)) := by
  constructor
  · intro ops
    have base : tablesAligned emptyIndex := by
      intro p; simp [emptyIndex]
    have : ∀ (st : FTSIndex), tablesAligned st → tablesAligned (applyOps st ops) := by
      induction ops with
      | nil => intro st h; exact h
      | cons op rest ih =>
        intro st h
        exact ih (applyOp st op) (tablesAligned_applyOp st op h)
    exact this emptyIndex base
  · exact tablesAligned_applyOp

/-- Witness for C3's preservation conjunct at a concrete state and
operation. -/
theorem c3_tables_aligned_witness :
    tablesAligned (applyOp emptyIndex (IndexOp.rm "x.md")) :=
  c3_tables_aligned.2 emptyIndex (IndexOp.rm "x.md") (by intro p; simp [emptyIndex])

/-! ### C8 — query validation rejects exactly the three documented classes -/

/-- C8. `validate_query` returns a failure pair (never raising) exactly for
queries that strip to the empty string, exceed 1000 characters, or contain
a denylisted engine-control substring in their uppercased form (the
patterns are uppercase, so this is the case-insensitive containment
check). -/
theorem c8_validate_query_iff (q : String) :
    (validate_query q).1 = false ↔
      (pyStrip q = "" ∨ 1000 < q.length ∨
        ∃ p ∈ dangerous_patterns, strContainsSub (upperStr q) p = true) := by
  by_cases h1 : pyStrip q = ""
  · simp [validate_query, h1]
  · by_cases h2 : q.length > 1000
    · simp [validate_query, h1, h2]
    · cases hf : dangerous_patterns.find? (fun p => strContainsSub (upperStr q) p) with
      | some p =>
        have hp := List.find?_some hf
        have hmem := List.mem_of_find?_eq_some hf
        constructor
        · intro _
          exact Or.inr (Or.inr ⟨p, hmem, hp⟩)
        · intro _
          simp [validate_query, h1, h2, hf]
      | none =>
        have hnone := List.find?_eq_none.mp hf
        constructor
        · intro hfalse
          exact absurd hfalse (by simp [validate_query, h1, h2, hf])
        · rintro (h | h | ⟨p, hpmem, hpc⟩)
          · exact absurd h h1
          · exact absurd h h2
          · exact absurd hpc (by simpa using hnone p hpmem)

/-- Witness for C8 at a concrete accepted and a concrete rejected query. -/
theorem c8_validate_query_witness :
    ((validate_query "drop table").1 = false ↔
      (pyStrip "drop table" = "" ∨ 1000 < "drop table".length ∨
        ∃ p ∈ dangerous_patterns, strContainsSub (upperStr "drop table") p = true)) ∧
    (validate_query "hello world").1 = true :=
  ⟨c8_validate_query_iff "drop table", by decide⟩

/-! ### C9 — index age is measured from the newest indexed document -/

theorem listMaxI_isSome (l : List Int) (h : l ≠ []) : ∃ m, listMaxI l = some m := by
  cases l with
  | nil => exact absurd rfl h
  | cons x xs =>
    cases hx : listMaxI xs <;> simp [listMaxI, hx]

theorem listMaxI_mem (l : List Int) (m : Int) (h : listMaxI l = some m) : m ∈ l := by
  induction l generalizing m with
  | nil => simp [listMaxI] at h
  | cons x xs ih =>
    cases hx : listMaxI xs with
    | none => simp [listMaxI, hx] at h; simp [h]
    | some y =>
      simp [listMaxI, hx] at h
      rcases max_choice x y with hc | hc <;> rw [hc] at h
      · simp [h]
      · exact List.mem_cons_of_mem x (ih m (by rw [hx, h]))

theorem listMaxI_le (l : List Int) (m : Int) (h : listMaxI l = some m) :
    ∀ x ∈ l, x ≤ m := by
  induction l generalizing m with
  | nil => simp
  | cons a xs ih =>
    cases hx : listMaxI xs with
    | none =>
      simp [listMaxI, hx] at h
      cases xs with
      | nil => simp [h]
      | cons b bs => simp [listMaxI] at hx; cases hbs : listMaxI bs <;> simp [hbs] at hx
    | some y =>
      simp [listMaxI, hx] at h
      intro x hxm
      rcases List.mem_cons.mp hxm with rfl | hxs
      · rw [← h]; exact le_max_left x y
      · calc x ≤ y := ih y hx x hxs
          _ ≤ max a y := le_max_right a y
          _ = m := h

/-- C9. `get_stats` reports `index_age_seconds = now - newest` where
`newest` is the maximum `last_indexed` over the metadata rows whenever at
least one document is indexed; on an index with no documents it reports
`now - 0` (the age since the epoch) and `total_files = 0` (the
authoritative empty signal). -/
theorem c9_stats_age (st : FTSIndex) (now : Int) :
    (st.notes_metadata ≠ [] →
      ∃ m : Int, (get_stats st now).newest_index = some m ∧
        m ∈ st.notes_metadata.map (·.last_indexed) ∧
        (∀ t ∈ st.notes_metadata.map (·.last_indexed), t ≤ m) ∧
        (get_stats st now).index_age_seconds = now - m) ∧
    (st.notes_metadata = [] → st.notes_fts = [] →
      (get_stats st now).index_age_seconds = now - 0 ∧
        (get_stats st now).total_files = 0) := by
  constructor
  · intro hne
    have hlist : st.notes_metadata.map (·.last_indexed) ≠ [] := by
      simpa using hne
    rcases listMaxI_isSome _ hlist with ⟨m, hm⟩
    exact ⟨m, by simp [get_stats, hm], listMaxI_mem _ _ hm, listMaxI_le _ _ hm,
      by simp [get_stats, hm]⟩
  · intro hmeta hfts
    simp [get_stats, hmeta, hfts, listMaxI]

/-! ### C1 — the reconciliation pass on the `{A, B}` / `{A}` / `{A, C}`
scenario -/

/-- C1 counterexample. With live set `{A, B}`, synchronizer state
`{A ↦ 1}` (stale), and both tables containing `{A, C}`, the pass makes
exactly two index-store calls — it indexes `B` and re-indexes `A` — and
never removes `C`: deletion is classified from the in-memory synchronizer
state, which does not contain `C`, not from the metadata table.  The
claimed third call (`removeDocument(C)`) does not happen. -/
theorem c1_counterexample :
    (check_and_update c1Vault [("A.md", 1)] c1Index 9).calls
        = [.ix "B.md", .ix "A.md"] ∧
    (check_and_update c1Vault [("A.md", 1)] c1Index 9).report.deleted = 0 ∧
    ((check_and_update c1Vault [("A.md", 1)] c1Index 9).index.notes_metadata.map
        (·.filepath)).contains "C.md" = true ∧
    ((check_and_update c1Vault [("A.md", 1)] c1Index 9).index.notes_fts.map
        (·.filepath)).contains "C.md" = true := by
  decide

/-- C1 (amended). For every reconciliation pass on a live set `{A, B}`
with only `A` in the synchronizer state (with a stale mtime) and metadata
containing `{A, C}`, the pass re-indexes `A` (modified) and indexes `B`
(added) — exactly two index-store calls, in the order added-then-modified —
classifies nothing as deleted (deletion is classified from synchronizer
state, which does not mention `C`), leaves `C` in both tables, and updates
the synchronizer state to the live set. -/
theorem c1_reconciliation (a b c : String) (ma ma' mb now : Int) (ca cb : String)
    (mda mdb : NoteMetadata) (rowA rowC : FtsRow) (metaA metaC : MetaRow)
    (out : SyncOutcome)
    (hea : isExcluded a = false) (heb : isExcluded b = false)
    (hab : a ≠ b) (hca : c ≠ a) (hcb : c ≠ b)
    (_hra : rowA.filepath = a) (hrc : rowC.filepath = c)
    (_hma : metaA.filepath = a) (hmc : metaC.filepath = c)
    (hstale : ma < ma')
    (hout : check_and_update [⟨a, ma', ca, mda⟩, ⟨b, mb, cb, mdb⟩] [(a, ma)]
        ⟨[rowA, rowC], [metaA, metaC]⟩ now = out) :
    out.calls = [.ix b, .ix a] ∧
    out.report.added = 1 ∧ out.report.modified = 1 ∧ out.report.deleted = 0 ∧
    out.mtimes = [(a, ma'), (b, mb)] ∧
    (∃ r ∈ out.index.notes_fts, r.filepath = c) ∧
    (∃ m ∈ out.index.notes_metadata, m.filepath = c) := by
  subst hout
  have hb1 : (a == b) = false := by simp [hab]
  have hclass : classifyPass [⟨a, ma', ca, mda⟩, ⟨b, mb, cb, mdb⟩] [(a, ma)]
      = ([b], [a], [(a, ma'), (b, mb)]) := by
    simp [classifyPass, mtLookup, mtSet, hea, heb, hb1, hstale, List.find?]
  have hfindb : List.find? (fun n : VaultNote => n.path == b)
      [⟨a, ma', ca, mda⟩, ⟨b, mb, cb, mdb⟩] = some ⟨b, mb, cb, mdb⟩ := by
    simp [List.find?, hb1]
  have hfinda : List.find? (fun n : VaultNote => n.path == a)
      [⟨a, ma', ca, mda⟩, ⟨b, mb, cb, mdb⟩] = some ⟨a, ma', ca, mda⟩ := by
    simp [List.find?]
  refine ⟨?_, ?_, ?_, ?_, ?_, ?_, ?_⟩ <;>
    simp only [check_and_update, get_stats, hclass, List.foldl, hfindb, hfinda,
      List.length_cons, List.length_nil, List.map_cons, List.map_nil]
  case _ =>
    simp [hfindb, hfinda, List.foldl]
  case _ =>
    simp
  case _ =>
    simp
  case _ =>
    simp [List.contains, hb1]
  case _ =>
    simp [List.contains, hb1]
  case _ =>
    refine ⟨rowC, ?_, hrc⟩
    simp [hfindb, hfinda, List.foldl, index_file, List.mem_filter, hrc, hca, hcb]
  case _ =>
    refine ⟨metaC, ?_, hmc⟩
    simp [hfindb, hfinda, List.foldl, index_file, List.mem_filter, hmc, hca, hcb]

/-- Witness for C1 (amended) at a fully concrete scenario. -/
theorem c1_reconciliation_witness :
    (check_and_update c1Vault [("A.md", 1)] c1Index 9).calls = [.ix "B.md", .ix "A.md"] ∧
    (check_and_update c1Vault [("A.md", 1)] c1Index 9).report.added = 1 ∧
    (check_and_update c1Vault [("A.md", 1)] c1Index 9).report.modified = 1 ∧
    (check_and_update c1Vault [("A.md", 1)] c1Index 9).report.deleted = 0 ∧
    (check_and_update c1Vault [("A.md", 1)] c1Index 9).mtimes = [("A.md", 2), ("B.md", 5)] ∧
    (∃ r ∈ (check_and_update c1Vault [("A.md", 1)] c1Index 9).index.notes_fts,
      r.filepath = "C.md") ∧
    (∃ m ∈ (check_and_update c1Vault [("A.md", 1)] c1Index 9).index.notes_metadata,
      m.filepath = "C.md") :=
  c1_reconciliation "A.md" "B.md" "C.md" 1 2 5 9 "ca" "cb" ⟨[], []⟩ ⟨[], []⟩
    ⟨"A.md", "A", "ca0", "", ""⟩ ⟨"C.md", "C", "cc", "", ""⟩
    ⟨"A.md", 0, 3, 0⟩ ⟨"C.md", 0, 2, 0⟩ _
    (by decide) (by decide) (by decide) (by decide) (by decide)
    rfl rfl rfl rfl (by decide) rfl

/-! ### C4 — the empty-index guard of `search_notes` -/

/-- C4 counterexample. The claim quantifies over every query string, but a
query that fails validation — here the empty string — raises a
`ValueError` before the zero-document guard is reached, instead of
returning the structured index-not-ready response. -/
theorem c4_counterexample :
    search_notes (fun _ _ _ _ _ => .ok []) emptyIndex "" 50 100 0
        = (.error "Search query cannot be empty", false) ∧
    (search_notes (fun _ _ _ _ _ => .ok []) emptyIndex "" 50 100 0).1.isOk = false := by
  decide

/-- C4 (amended). For every query that is not dispatched to a field or
property search (`tag:` / `path:` / `property:` prefixes) and that passes
query, context-length and max-results validation, `search_notes` against a
zero-document index returns the structured index-not-ready response —
`total_count = 0`, performance status `index_not_ready`, a message telling
the caller to rebuild — and never invokes the FTS engine (the `Bool`
component is `false`). -/
theorem c4_empty_index_guard (engine : FtsEngine) (st : FTSIndex) (q : String)
    (mr cl : Nat) (now : Int)
    (h1 : pyStartsWith q "tag:" = false) (h2 : pyStartsWith q "path:" = false)
    (h3 : pyStartsWith q "property:" = false)
    (h4 : (validate_query q).1 = true)
    (h5 : 10 ≤ cl) (h6 : cl ≤ 500) (h7 : 1 ≤ mr) (h8 : mr ≤ 500)
    (h9 : st.notes_fts = []) :
    search_notes engine st q mr cl now =
      (.ok (.resp { results := [], total_count := 0, max_results := mr
                    indexed_files := some 0, perf_status := some "index_not_ready"
                    index_age_seconds := none, message := some notReadyMessage
                    truncated := false }), false) := by
  have hcl : (validate_context_length cl).1 = true := by
    have : ¬ (cl < 10 ∨ 500 < cl) := by omega
    simp [validate_context_length, this]
  have hmr : ¬ (mr < 1 ∨ 500 < mr) := by omega
  have hstats : (get_stats st now).total_files = 0 := by simp [get_stats, h9]
  simp only [search_notes, h1, h2, h3, h4, hcl, hmr, hstats, Bool.false_eq_true, if_false,
    if_true, Bool.true_eq_false]

/-- Witness for C4 (amended) at a concrete query and the empty index. -/
theorem c4_empty_index_guard_witness :
    search_notes (fun _ _ _ _ _ => .ok []) emptyIndex "hello" 50 100 0 =
      (.ok (.resp { results := [], total_count := 0, max_results := 50
                    indexed_files := some 0, perf_status := some "index_not_ready"
                    index_age_seconds := none, message := some notReadyMessage
                    truncated := false }), false) :=
  c4_empty_index_guard (fun _ _ _ _ _ => .ok []) emptyIndex "hello" 50 100 0
    (by decide) (by decide) (by decide) (by decide)
    (by decide) (by decide) (by decide) (by decide) rfl

/-! ### C5 — the fallback scan of `search` -/

theorem lowerA_wild (c : Char) (h1 : ¬ c = '%') (h2 : ¬ c = '_') :
    ¬ lowerA c = '%' ∧ ¬ lowerA c = '_' := by
  cases hf : upperLower.find? (fun p => p.1 == c) with
  | none =>
    have h3 : lowerA c = c := by unfold lowerA; rw [hf]; rfl
    rw [h3]; exact ⟨h1, h2⟩
  | some p =>
    have hmem := List.mem_of_find?_eq_some hf
    have h3 : lowerA c = p.2 := by unfold lowerA; rw [hf]; rfl
    rw [h3]
    fin_cases hmem <;> decide

theorem lowerA_idem (c : Char) : lowerA (lowerA c) = lowerA c := by
  cases hf : upperLower.find? (fun p => p.1 == c) with
  | none =>
    have h3 : lowerA c = c := by unfold lowerA; rw [hf]; rfl
    rw [h3]; exact h3
  | some p =>
    have hmem := List.mem_of_find?_eq_some hf
    have h3 : lowerA c = p.2 := by unfold lowerA; rw [hf]; rfl
    rw [h3]
    fin_cases hmem <;> decide

theorem map_lowerA_idem (l : List Char) : (l.map lowerA).map lowerA = l.map lowerA := by
  induction l with
  | nil => rfl
  | cons c t ih => simp [lowerA_idem c, ih]

theorem noWildcard_map_lowerA (s : List Char) (h : noWildcard s = true) :
    noWildcard (s.map lowerA) = true := by
  rw [noWildcard, List.all_map]
  rw [noWildcard, List.all_eq_true] at h
  rw [List.all_eq_true]
  intro c hc
  have hp := h c hc
  simp only [Bool.and_eq_true, Bool.not_eq_true', beq_eq_false_iff_ne] at hp
  have hw := lowerA_wild c hp.1 hp.2
  simp only [Function.comp, Bool.and_eq_true, Bool.not_eq_true', beq_eq_false_iff_ne]
  exact hw

theorem charsPre_nil (n : List Char) : charsPre n [] = n.isEmpty := by
  cases n <;> rfl

theorem likeF_pct_all (s : List Char) : ∀ f : Nat, s.length + 2 ≤ f → likeF f ['%'] s = true := by
  induction s with
  | nil =>
    intro f hf
    cases f with
    | zero => omega
    | succ f' =>
      cases f' with
      | zero => omega
      | succ f'' => simp [likeF]
  | cons c cs ih =>
    intro f hf
    cases f with
    | zero => omega
    | succ f' =>
      have h1 : likeF f' ['%'] cs = true := ih f' (by simp at hf; omega)
      simp [likeF, h1]

theorem likeF_seg : ∀ q : List Char, noWildcard q = true →
    ∀ (s : List Char) (f : Nat), q.length + s.length + 2 ≤ f →
      likeF f (q ++ ['%']) s = charsPre (q.map lowerA) (s.map lowerA) := by
  intro q
  induction q with
  | nil =>
    intro _ s f hf
    simp only [List.nil_append, List.map_nil]
    rw [likeF_pct_all s f (by simpa using hf)]
    rfl
  | cons a q' ih =>
    intro hq s f hf
    have hq2 := hq
    simp only [noWildcard, List.all_cons, Bool.and_eq_true, Bool.not_eq_true',
      beq_eq_false_iff_ne] at hq2
    have ha1 : ¬ a = '%' := hq2.1.1
    have ha2 : ¬ a = '_' := hq2.1.2
    have hq' : noWildcard q' = true := hq2.2
    cases f with
    | zero => omega
    | succ f' =>
      cases s with
      | nil => simp [likeF, ha1, ha2, charsPre]
      | cons c cs =>
        have hrec := ih hq' cs f' (by simp at hf ⊢; omega)
        simp [likeF, ha1, ha2, charsPre, hrec]

theorem likeF_succ_pct (f : Nat) (ps s : List Char) :
    likeF (f + 1) ('%' :: ps) s =
      (likeF f ps s ||
        (match s with
         | [] => false
         | _ :: cs => likeF f ('%' :: ps) cs)) := by
  simp [likeF]

theorem likeF_outer (q : List Char) (hq : noWildcard q = true) :
    ∀ (s : List Char) (f : Nat), q.length + s.length + 3 ≤ f →
      likeF f ('%' :: (q ++ ['%'])) s = charsSub (q.map lowerA) (s.map lowerA) := by
  intro s
  induction s with
  | nil =>
    intro f hf
    cases f with
    | zero => omega
    | succ f' =>
      have h1 := likeF_seg q hq [] f' (by simp at hf ⊢; omega)
      rw [likeF_succ_pct, h1]
      simp [charsSub, charsPre_nil]
  | cons c cs ih =>
    intro f hf
    cases f with
    | zero => omega
    | succ f' =>
      have h1 := likeF_seg q hq (c :: cs) f' (by simp at hf ⊢; omega)
      have h2 := ih f' (by simp at hf ⊢; omega)
      rw [likeF_succ_pct, h1]
      show (charsPre (List.map lowerA q) (List.map lowerA (c :: cs)) ||
          likeF f' ('%' :: (q ++ ['%'])) cs) = _
      rw [h2]
      simp [charsSub]

theorem likeMatch_ci_sub (q s : List Char) (hq : noWildcard q = true) :
    likeMatch ('%' :: (q ++ ['%'])) s = charsSub (q.map lowerA) (s.map lowerA) := by
  rw [likeMatch]
  apply likeF_outer q hq s
  simp only [List.length_cons, List.length_append]
  omega

theorem shapeSimpleRows_mem (q : String) (off : Nat) :
    ∀ (i : Nat) (rows : List FtsRow) (r : SearchResult), r ∈ shapeSimpleRows q off i rows →
      ∃ row ∈ rows, r.path = row.filepath ∧ r.filename = row.filename ∧
        r.context = simpleContext row.content q ∧ r.score = 1 := by
  intro i rows
  induction rows generalizing i with
  | nil => intro r hr; simp [shapeSimpleRows] at hr
  | cons a t ih =>
    intro r hr
    simp only [shapeSimpleRows, List.mem_cons] at hr
    rcases hr with rfl | hr
    · exact ⟨a, List.mem_cons_self a t, rfl, rfl, rfl, rfl⟩
    · rcases ih (i + 1) r hr with ⟨row, hm, hs⟩
      exact ⟨row, List.mem_cons_of_mem a hm, hs⟩

/-- C5 counterexample. When the engine rejects the query `a%b`, the
fallback is not a substring scan: `%` acts as a `LIKE` wildcard, so the
row with content `axb` is returned — with a first-100-characters context,
not a window around a match — even though `a%b` does not occur in `axb`
as a (case-insensitive) substring. -/
theorem c5_counterexample :
    searchOp (fun _ _ _ _ _ => .error "fts5 syntax error") c5Index "a%b" 50 0 10
        = [⟨"n.md", "n", "axb...", 1, 1⟩] ∧
    strContainsSub (lowerStr "axb") (lowerStr "a%b") = false := by
  decide

/-- C5 (amended). When the transform or the engine rejects a query,
`search` returns the `_simple_search` results instead of raising, for
every query and index state: a `LIKE '%query.lower()%'` scan over the
content column (in which `%` and `_` from the query act as wildcards),
each result shaped with the documented context window.  For every query
containing no `LIKE` wildcard, the scan predicate is exactly
case-insensitive substring containment. -/
theorem c5_fallback_scan :
    (∀ (engine : FtsEngine) (st : FTSIndex) (q : String) (l o sl : Nat),
      (∀ fq, ∃ msg, engine st fq l o sl = Except.error msg) →
      searchOp engine st q l o sl = simple_search st q l o) ∧
    (∀ (st : FTSIndex) (q : String) (l o : Nat), ∀ r ∈ simple_search st q l o,
      ∃ row ∈ st.notes_fts, likeMatch (likePattern q) row.content.data = true ∧
        r.path = row.filepath ∧ r.filename = row.filename ∧
        r.context = simpleContext row.content q ∧ r.score = 1) ∧
    (∀ q : String, noWildcard q.data = true → ∀ content : String,
      likeMatch (likePattern q) content.data
        = charsSub (lowerStr q).data (lowerStr content).data) := by
  refine ⟨?_, ?_, ?_⟩
  · intro engine st q l o sl hE
    unfold searchOp
    cases htf : transform_query q with
    | error e => rfl
    | ok fq =>
      show (match engine st fq l o sl with
            | Except.ok rows => shapeEngineRows o 0 rows
            | Except.error _ => simple_search st q l o) = simple_search st q l o
      cases hEv : engine st fq l o sl with
      | error e2 => rfl
      | ok rows =>
        rcases hE fq with ⟨msg, hmsg⟩
        rw [hEv] at hmsg
        cases hmsg
  · intro st q l o r hr
    rcases shapeSimpleRows_mem q o 0 _ r hr with ⟨row, hmem, h1, h2, h3, h4⟩
    have hstep := List.mem_of_mem_drop (List.mem_of_mem_take hmem)
    have hfil := List.mem_filter.mp hstep
    refine ⟨row, hfil.1, ?_, h1, h2, h3, h4⟩
    simpa using hfil.2
  · intro q hq content
    have hq' : noWildcard ((lowerStr q).data) = true := noWildcard_map_lowerA q.data hq
    have hsub := likeMatch_ci_sub ((lowerStr q).data) content.data hq'
    show likeMatch ('%' :: (lowerStr q).data ++ ['%']) content.data = _
    rw [List.cons_append, hsub]
    show charsSub ((q.data.map lowerA).map lowerA) _ = _
    rw [map_lowerA_idem]
    rfl

/-- Witness for C5 (amended) at a concrete failing engine, state, result
and wildcard-free query. -/
theorem c5_fallback_scan_witness :
    searchOp (fun _ _ _ _ _ => Except.error "boom") c5Index "xb" 50 0 10
        = simple_search c5Index "xb" 50 0 ∧
    (∃ row ∈ c5Index.notes_fts, likeMatch (likePattern "xb") row.content.data = true ∧
      (⟨"n.md", "n", "axb", 1, 1⟩ : SearchResult).path = row.filepath ∧
      (⟨"n.md", "n", "axb", 1, 1⟩ : SearchResult).filename = row.filename ∧
      (⟨"n.md", "n", "axb", 1, 1⟩ : SearchResult).context = simpleContext row.content "xb" ∧
      (⟨"n.md", "n", "axb", 1, 1⟩ : SearchResult).score = 1) ∧
    likeMatch (likePattern "xb") "AXB".data
        = charsSub (lowerStr "xb").data (lowerStr "AXB").data :=
  ⟨c5_fallback_scan.1 (fun _ _ _ _ _ => Except.error "boom") c5Index "xb" 50 0 10
      (fun _ => ⟨"boom", rfl⟩),
    c5_fallback_scan.2.1 c5Index "xb" 50 0 ⟨"n.md", "n", "axb", 1, 1⟩ (by decide),
    c5_fallback_scan.2.2 "xb" (by decide) "AXB"⟩

/-! ### C6 — implicit-phrase wrapping and quoted-phrase pass-through -/

theorem replCharsF_of_not_sub (pat rep : List Char) (hne : pat ≠ []) :
    ∀ (f : Nat) (s : List Char), charsSub pat s = false → replCharsF pat rep f s = s := by
  intro f
  induction f with
  | zero => intro s _; cases s <;> rfl
  | succ f ih =>
    intro s hs
    cases s with
    | nil => rfl
    | cons c cs =>
      have hsplit : charsPre pat (c :: cs) = false ∧ charsSub pat cs = false := by
        have := hs
        simp [charsSub] at this
        exact this
      have hpe : pat.isEmpty = false := by
        cases pat with
        | nil => exact absurd rfl hne
        | cons a t => rfl
      simp [replCharsF, hpe, hsplit.1, ih cs hsplit.2]

theorem pyReplace_of_not_sub (q pat rep : String) (hne : pat.data ≠ [])
    (h : strContainsSub q pat = false) : pyReplace q pat rep = q := by
  show (⟨replChars pat.data rep.data q.data⟩ : String) = q
  rw [replChars, replCharsF_of_not_sub pat.data rep.data hne q.data.length q.data h]

theorem pyStrip_ne_empty_of_quote (q : String) (h : pyStartsWith q "\"" = true) :
    pyStrip q ≠ "" := by
  intro hq
  have hdata : trimChars q.data = [] := congrArg String.data hq
  cases hqd : q.data with
  | nil => rw [pyStartsWith, hqd] at h; exact absurd h (by decide)
  | cons c cs =>
    rw [pyStartsWith, hqd] at h
    have hc : c = '"' := by
      simp [charsPre] at h
      exact h.symm
    subst hc
    rw [hqd] at hdata
    have hcq : isSpaceChar '"' = false := by decide
    rw [trimChars, List.dropWhile_cons_of_neg (by simp [hcq])] at hdata
    have : List.dropWhile isSpaceChar (('"' :: cs).reverse) = [] := by
      have := congrArg List.reverse hdata
      simpa using this
    have hall := List.dropWhile_eq_nil_iff.mp this
    have : isSpaceChar '"' = true := by
      simpa using hall '"' (by simp)
    exact absurd this (by decide)

/-- C6 counterexample. The query `"x "` is non-empty, contains a space,
contains no boolean operator, and neither starts nor ends with a quote —
yet `_transform_query` returns it stripped and unquoted (`x`), because the
multi-word test is applied to the *stripped* query.  -/
theorem c6_counterexample :
    strContainsSub "x " " " = true ∧
    pyStartsWith "x " "\"" = false ∧ pyEndsWith "x " "\"" = false ∧
    strContainsSub "x " " or " = false ∧ strContainsSub "x " " and " = false ∧
    strContainsSub "x " " not " = false ∧ strContainsSub "x " " OR " = false ∧
    strContainsSub "x " " AND " = false ∧ strContainsSub "x " " NOT " = false ∧
    transform_query "x " = .ok "x" ∧
    pyStartsWith "x" "\"" = false := by
  decide

/-- C6 (amended). A query whose *stripped* form is non-empty and contains a
space, which contains none of the space-delimited operator spellings
(`or`/`and`/`not` in lower or upper case), and which neither starts nor
ends with a double quote, is returned as the stripped query wrapped in
double quotes (an exact phrase); and any query that starts and ends with a
double quote — in particular an already-quoted phrase — is passed through
unchanged. -/
theorem c6_phrase_wrapping :
    (∀ q : String, pyStrip q ≠ "" → strContainsSub (pyStrip q) " " = true →
      strContainsSub q " or " = false → strContainsSub q " and " = false →
      strContainsSub q " not " = false → strContainsSub q " OR " = false →
      strContainsSub q " AND " = false → strContainsSub q " NOT " = false →
      pyStartsWith q "\"" = false → pyEndsWith q "\"" = false →
      transform_query q = .ok ("\"" ++ pyStrip q ++ "\"")) ∧
    (∀ q : String, pyStartsWith q "\"" = true → pyEndsWith q "\"" = true →
      transform_query q = .ok q) := by
  constructor
  · intro q h0 hsp hor hand hnot hOR hAND hNOT hqs hqe
    have e1 : pyReplace q " or " " OR " = q :=
      pyReplace_of_not_sub _ _ _ (by decide) hor
    have e2 : pyReplace q " and " " AND " = q :=
      pyReplace_of_not_sub _ _ _ (by decide) hand
    have e3 : pyReplace q " not " " NOT " = q :=
      pyReplace_of_not_sub _ _ _ (by decide) hnot
    simp [transform_query, h0, hsp, hor, hand, hnot, hOR, hAND, hNOT, hqs, hqe,
      e1, e2, e3]
  · intro q hqs hqe
    simp [transform_query, pyStrip_ne_empty_of_quote q hqs, hqs, hqe]

/-- Witness for C6 (amended): the wrap branch at `"machine learning"` and
the pass-through branch at `"\"machine learning\""`. -/
theorem c6_phrase_wrapping_witness :
    transform_query "machine learning" = .ok "\"machine learning\"" ∧
    transform_query "\"other phrase\"" = .ok "\"other phrase\"" :=
  ⟨c6_phrase_wrapping.1 "machine learning" (by decide) (by decide) (by decide) (by decide)
      (by decide) (by decide) (by decide) (by decide) (by decide) (by decide),
    c6_phrase_wrapping.2 "\"other phrase\"" (by decide) (by decide)⟩

/-! ### C7 — operator spellings are only recognized in exact lower or
upper case -/

/-- C7. The code's own comment promises case-insensitive operator handling,
but `_transform_query` only rewrites the exactly-lowercase spellings
`' or '`/`' and '`/`' not '` and only detects the uppercase forms:
the mixed-case query `python And java` is wrapped into a quoted phrase
instead of being compiled as the boolean query `python AND java`, while
the all-lowercase spelling is normalized as documented. -/
theorem c7_mixed_case_operator_bug :
    transform_query "python And java" = .ok "\"python And java\"" ∧
    transform_query "python and java" = .ok "python AND java" ∧
    transform_query "python AND java" = .ok "python AND java" := by
  decide

/-! ### C10 — the truncated flag is `len(results) >= max_results` -/

theorem search_by_field_ok_truncated (engine : FtsEngine) (st : FTSIndex) (f v : String)
    (mr : Nat) (r' : SearchResponse) (b' : Bool)
    (h : search_by_field engine st f v mr = (.ok r', b')) :
    r'.truncated = decide (mr ≤ r'.results.length) := by
  unfold search_by_field at h
  split at h
  · simp at h
  · split at h
    · simp at h
    · split at h
      · simp at h
      · simp only [Prod.mk.injEq, Except.ok.injEq] at h
        rcases h with ⟨hr, _⟩
        subst hr
        rfl

/-- C10. Every shaped response of `search_notes` and of `search_by_field`
carries `truncated = (len(results) >= max_results)`; in particular a query
returning exactly `max_results` rows is reported truncated even though
nothing was cut off. -/
theorem c10_truncated_iff (engine : FtsEngine) (st : FTSIndex) (q f v : String)
    (mr cl : Nat) (now : Int) (r r' : SearchResponse) (b b' : Bool) :
    (search_notes engine st q mr cl now = (.ok (.resp r), b) →
      r.truncated = decide (mr ≤ r.results.length)) ∧
    (search_by_field engine st f v mr = (.ok r', b') →
      r'.truncated = decide (mr ≤ r'.results.length)) ∧
    (search_notes engine st q mr cl now = (.ok (.resp r), b) → r.results.length = mr →
      r.truncated = true) := by
  have main : search_notes engine st q mr cl now = (.ok (.resp r), b) →
      r.truncated = decide (mr ≤ r.results.length) := by
    intro h
    unfold search_notes at h
    split at h
    · rcases hsb : (search_by_field engine st "tags"
        (⟨(pyDrop q 4).data.dropWhile (· == '#')⟩ : String) mr) with ⟨res1, res2⟩
      dsimp only at h
      rw [hsb] at h
      cases res1 with
      | error e => simp [Except.map] at h
      | ok rr =>
        simp only [Except.map, Prod.mk.injEq, Except.ok.injEq, SNOut.resp.injEq] at h
        rcases h with ⟨hr, hb⟩
        subst hr
        exact search_by_field_ok_truncated _ _ _ _ _ _ _ hsb
    · split at h
      · rcases hsb : (search_by_field engine st "filename" (pyDrop q 5) mr) with ⟨res1, res2⟩
        dsimp only at h
        rw [hsb] at h
        cases res1 with
        | error e => simp [Except.map] at h
        | ok rr =>
          simp only [Except.map, Prod.mk.injEq, Except.ok.injEq, SNOut.resp.injEq] at h
          rcases h with ⟨hr, hb⟩
          subst hr
          exact search_by_field_ok_truncated _ _ _ _ _ _ _ hsb
      · split at h
        · split at h
          · simp at h
          · simp at h
        · split at h
          · simp at h
          · split at h
            · simp at h
            · split at h
              · simp at h
              · split at h
                · -- index-not-ready branch: results are empty and mr ≥ 1
                  rename_i hmr _
                  simp only [Prod.mk.injEq, Except.ok.injEq, SNOut.resp.injEq] at h
                  rcases h with ⟨hr, _⟩
                  subst hr
                  have : ¬ (mr ≤ 0) := by
                    rcases Nat.lt_or_ge mr 1 with hlt | hge
                    · exact absurd (Or.inl hlt) hmr
                    · omega
                  simp [this]
                · simp only [Prod.mk.injEq, Except.ok.injEq, SNOut.resp.injEq] at h
                  rcases h with ⟨hr, _⟩
                  subst hr
                  rfl
  refine ⟨main, search_by_field_ok_truncated _ _ _ _ _ _ _, ?_⟩
  intro h hlen
  have := main h
  rw [hlen] at this
  simpa using this

/-- Witness for C10 at a concrete state, engine and query. -/
theorem c10_truncated_iff_witness :
    (search_notes (fun _ _ _ _ _ => .ok []) c5Index "hello" 50 100 0
        = (.ok (.resp { results := [], total_count := 0, max_results := 50
                        indexed_files := some 1, perf_status := none
                        index_age_seconds := some 0, message := none
                        truncated := false }), true)) ∧
    ({ results := [], total_count := 0, max_results := 50
       indexed_files := some 1, perf_status := none
       index_age_seconds := some 0, message := none
       truncated := false } : SearchResponse).truncated = decide (50 ≤ ([] : List SearchResult).length) :=
  ⟨by decide, (c10_truncated_iff (fun _ _ _ _ _ => .ok []) c5Index "hello" "tags" "v"
      50 100 0 _ ⟨[], 0, 50, none, none, none, none, false⟩ true true).1 (by decide)⟩

/-- Witness for C9 at concrete one-row and empty states. -/
theorem c9_stats_age_witness :
    (∃ m : Int,
        (get_stats ⟨[⟨"a.md", "a", "hi", "", ""⟩], [⟨"a.md", 3, 2, 3⟩]⟩ 10).newest_index
            = some m ∧
        m ∈ ([⟨"a.md", 3, 2, 3⟩] : List MetaRow).map (·.last_indexed) ∧
        (∀ t ∈ ([⟨"a.md", 3, 2, 3⟩] : List MetaRow).map (·.last_indexed), t ≤ m) ∧
        (get_stats ⟨[⟨"a.md", "a", "hi", "", ""⟩], [⟨"a.md", 3, 2, 3⟩]⟩ 10).index_age_seconds
            = 10 - m) ∧
    ((get_stats emptyIndex 10).index_age_seconds = 10 - 0 ∧
      (get_stats emptyIndex 10).total_files = 0) :=
  ⟨(c9_stats_age ⟨[⟨"a.md", "a", "hi", "", ""⟩], [⟨"a.md", 3, 2, 3⟩]⟩ 10).1 (by decide),
    (c9_stats_age emptyIndex 10).2 rfl rfl⟩
example : pathStem "a/b/.gitignore" = ".gitignore" := by decide
example : pathStem "x.tar.gz" = "x.tar" := by decide
example :
    (index_file emptyIndex "a.md" "hi" ⟨["t"], [("k", .str "v"), ("tags", .str "z")]⟩ 5).notes_fts
      = [⟨"a.md", "a", "hi", "t", "k:v"⟩] := by decide
example : (get_stats emptyIndex 7).index_age_seconds = 7 := by decide

example : pyReplace "a or b" " or " " OR " = "a OR b" := by decide
example : pyStrip "  x y  " = "x y" := by decide
example : strContainsSub "hello" "ell" = true := by decide
example : strContainsSub "hello" "xy" = false := by decide
example : charsFind "b".data "aab".data = some 2 := by decide
example : pyStartsWith "tag:foo" "tag:" = true := by decide
example : pyEndsWith "\"abc\"" "\"" = true := by decide
example : lowerStr "AxZ%" = "axz%" := by decide
example : upperStr "drop it" = "DROP IT" := by decide

end ObsidianPilot
